import Mathlib

/-!
Verification of the experiment-tracking core (`hyperdash/experiment.py`).

The development has two models of the same code:

* a sequential model (`ExpState`, `Experiment.*`) in which each public
  operation is a pure function from experiment state to a new state plus a
  trace of observable events (logger calls, delivery-client calls, lock
  operations, channel operations), translated statement by statement from
  the source of `Experiment.metric` / `param` / `iter` / `log` / `end`;

* a concurrent model (`CState`, `Step`, `Reachable`) interleaving the
  background worker thread started in `Experiment.__init__` with the
  caller thread executing `Experiment.end`, used for the rendezvous,
  timestamp-ordering and runner-signal invariants.

The lazily cached Keras callback accessor (`Callbacks.keras`) and the
adapter's `on_epoch_end` are modelled separately.
-/

namespace Hyperdash

/-- Identity of a process-level output stream (`sys.stdout` / `sys.stderr`
or one of the two `IOBuffer` capture buffers created in `__init__`). -/
inductive StreamId where
  | origOut
  | origErr
  | buf (i : Nat)
deriving DecidableEq

/-- State of `ExperimentRunner` (experiment.py lines 27-64): `done`,
`exit_cleanly`, `start_time`, `end_time` (timestamps as naturals,
`None` as `none`). -/
structure ExperimentRunner where
  done : Bool
  exit_cleanly : Bool
  start_time : Option Nat
  end_time : Option Nat
deriving DecidableEq

/-- Model of `ExperimentRunner.__init__` with its default arguments
(`done=False`, `exit_cleanly=True`, both timestamps unset). -/
def ExperimentRunner.create : ExperimentRunner :=
  { done := false, exit_cleanly := true, start_time := none, end_time := none }

/-- Model of `ExperimentRunner.is_done`: returns `(exit_cleanly, done)`. -/
def ExperimentRunner.is_done (r : ExperimentRunner) : Bool × Bool :=
  (r.exit_cleanly, r.done)

/-- Model of `ExperimentRunner.get_return_val`: always `None`. -/
def ExperimentRunner.get_return_val (_r : ExperimentRunner) : Option Unit :=
  none

/-- Model of `ExperimentRunner.get_exception`: always `None`. -/
def ExperimentRunner.get_exception (_r : ExperimentRunner) : Option Unit :=
  none

/-- Model of `ExperimentRunner.should_run_as_thread`: always `False`. -/
def ExperimentRunner.should_run_as_thread (_r : ExperimentRunner) : Bool :=
  false

/-- Model of `ExperimentRunner.get_start_and_end_time`. -/
def ExperimentRunner.get_start_and_end_time (r : ExperimentRunner) :
    Option Nat × Option Nat :=
  (r.start_time, r.end_time)

/-- Model of `ExperimentRunner._set_start_time`. -/
def ExperimentRunner._set_start_time (r : ExperimentRunner) (t : Nat) :
    ExperimentRunner :=
  { r with start_time := some t }

/-- Model of `ExperimentRunner._set_end_time`. -/
def ExperimentRunner._set_end_time (r : ExperimentRunner) (t : Nat) :
    ExperimentRunner :=
  { r with end_time := some t }

/-- Observable events emitted by the sequential model: logger calls
(`warn`/`info`), forwarded delivery-client calls, and the individual
statements of `Experiment.end` (lines 151-162). -/
inductive Event where
  | warn (msg : String)
  | info (msg : String)
  | clientMetric (name : String) (value : Int) (log : Bool)
  | clientParam (name : String) (value : Int) (log : Bool)
  | clientIter (n : Int) (log : Bool)
  | checkEnded (value : Bool)
  | setEnded
  | acquireLock
  | releaseLock
  | restoreStreams
  | setExitCleanly
  | setDone
  | chanGet
deriving DecidableEq

/-- Sequential state of an `Experiment` instance: the stream bindings of
`sys`, the saved originals `_old_out` / `_old_err`, the owned
`ExperimentRunner`, the number of tokens in `done_chan`, and `_ended`. -/
structure ExpState where
  model_name : String
  stdout : StreamId
  stderr : StreamId
  old_out : StreamId
  old_err : StreamId
  runner : ExperimentRunner
  done_chan : Nat
  ended : Bool
deriving DecidableEq

/-- Model of `Experiment.__init__` (lines 76-131), restricted to the state the
claims are about: record the current streams in `_old_out`/`_old_err`
(line 97), swap `sys.stdout`/`sys.stderr` for the two buffers only when
`capture_io` is true (lines 104-106), create the runner, an empty
`done_chan`, and `_ended = False` (line 131). The worker thread started
at line 128 is modelled by the concurrent system below. -/
def Experiment.init (model_name : String) (capture_io : Bool)
    (cur_out cur_err : StreamId) : ExpState :=
  { model_name := model_name
    stdout := if capture_io then StreamId.buf 0 else cur_out
    stderr := if capture_io then StreamId.buf 1 else cur_err
    old_out := cur_out
    old_err := cur_err
    runner := ExperimentRunner.create
    done_chan := 0
    ended := false }

/-- Model of `Experiment.metric` (lines 133-137): if `_ended`, warn and return;
otherwise forward to `_hd_client.metric`. -/
def Experiment.metric (s : ExpState) (name : String) (value : Int)
    (log : Bool) : ExpState × List Event :=
  if s.ended then
    (s, [Event.warn ("Cannot send metric " ++ name ++
      ", experiment ended. Please start a new experiment.")])
  else
    (s, [Event.clientMetric name value log])

/-- Model of `Experiment.param` (lines 139-143). -/
def Experiment.param (s : ExpState) (name : String) (value : Int)
    (log : Bool) : ExpState × List Event :=
  if s.ended then
    (s, [Event.warn ("Cannot send param " ++ name ++
      ", experiment ended. Please start a new experiment.")])
  else
    (s, [Event.clientParam name value log])

/-- Model of `Experiment.iter` (lines 145-149). -/
def Experiment.iter (s : ExpState) (n : Int) (log : Bool) :
    ExpState × List Event :=
  if s.ended then
    (s, [Event.warn "Cannot iterate, experiment ended. Please start a new experiment."])
  else
    (s, [Event.clientIter n log])

/-- Model of `Experiment.log` (lines 169-170): unconditionally
`self._logger.info(string)`. -/
def Experiment.log (s : ExpState) (string : String) : ExpState × List Event :=
  (s, [Event.info string])

/-- Model of `Experiment.end` (lines 151-162), statement by statement.
`end` is a Lean keyword, hence the primed name. The early-return branch
emits only the `checkEnded true` read; the main branch emits the reads
and writes in source order: check `_ended` (line 152), set
`_ended = True` (line 155), acquire `self.lock` (line 156), restore
`sys.stdout`/`sys.stderr` (line 157), set `exit_cleanly` (line 158) and
`done` (line 159), release the lock, then `done_chan.get` (line 162). -/
def Experiment.end' (s : ExpState) : ExpState × List Event :=
  if s.ended then
    (s, [Event.checkEnded true])
  else
    ({ s with
        ended := true
        stdout := s.old_out
        stderr := s.old_err
        runner := { s.runner with exit_cleanly := true, done := true }
        done_chan := s.done_chan - 1 },
     [Event.checkEnded false, Event.setEnded, Event.acquireLock,
      Event.restoreStreams, Event.setExitCleanly, Event.setDone,
      Event.releaseLock, Event.chanGet])

/-- Is this event a logger warning? -/
def isWarn : Event → Bool
  | Event.warn _ => true
  | _ => false

/-- Is this event a call forwarded to the delivery client
(`_hd_client.metric` / `.param` / `.iter`)? -/
def isClientCall : Event → Bool
  | Event.clientMetric _ _ _ => true
  | Event.clientParam _ _ _ => true
  | Event.clientIter _ _ => true
  | _ => false

/-- Is this event one of the side effects of `Experiment.end`: setting
`_ended`, restoring the streams, or updating the runner signal? -/
def isSideEffect : Event → Bool
  | Event.setEnded => true
  | Event.restoreStreams => true
  | Event.setExitCleanly => true
  | Event.setDone => true
  | _ => false

/-- Is this event the read of the `_ended` flag? -/
def isCheck : Event → Bool
  | Event.checkEnded _ => true
  | _ => false

/-- The instance lock `self.lock` is held at position `i` of a trace when
more acquisitions than releases precede `i`. -/
def lockHeldAt (tr : List Event) (i : Nat) : Prop :=
  (tr.take i).count Event.releaseLock < (tr.take i).count Event.acquireLock

instance (tr : List Event) (i : Nat) : Decidable (lockHeldAt tr i) :=
  inferInstanceAs (Decidable (_ < _))

/-- Every read of the `_ended` flag in the trace happens while the
instance lock is held. -/
def checkUnderLock (tr : List Event) : Prop :=
  ∀ i : Fin tr.length, isCheck (tr.get i) = true → lockHeldAt tr (i : Nat)

instance (tr : List Event) : Decidable (checkUnderLock tr) :=
  inferInstanceAs (Decidable (∀ i : Fin tr.length,
    isCheck (tr.get i) = true → lockHeldAt tr (i : Nat)))

/-- Every read of the `_ended` flag in the trace precedes every side
effect. -/
def checkFirst (tr : List Event) : Prop :=
  ∀ i j : Fin tr.length,
    isCheck (tr.get i) = true → isSideEffect (tr.get j) = true →
    (i : Nat) < (j : Nat)

instance (tr : List Event) : Decidable (checkFirst tr) :=
  inferInstanceAs (Decidable (∀ i j : Fin tr.length,
    isCheck (tr.get i) = true → isSideEffect (tr.get j) = true →
    (i : Nat) < (j : Nat)))

/-- A fresh experiment used as a concrete input in witnesses and
counterexamples. -/
def freshState : ExpState :=
  Experiment.init "demo" true StreamId.origOut StreamId.origErr

/-- A concrete experiment on which `end` has already been called. -/
def endedState : ExpState := (Experiment.end' freshState).1

/-- One entry of the `Callbacks._callbacks` dictionary under the
`"keras"` key (lines 179-234): the key may be absent (never attempted),
hold `False` (Keras unimportable), or hold the `_KerasCallback`
instance. -/
inductive CallbackEntry where
  | missing
  | unavailable
  | adapter
deriving DecidableEq

/-- Model of `from keras.callbacks import Callback` at line 202, parameterised by
whether Keras is installed: an `ImportError` is modelled as `Except.error`. -/
def importKerasCallback (keras_installed : Bool) : Except Unit Unit :=
  if keras_installed then Except.ok () else Except.error ()

/-- The `Callbacks.keras` property (lines 183-234): read the cache entry;
`False` means return `None` without importing (lines 196-197); a missing
entry attempts the import (line 201), storing the new adapter on success
(lines 227-229) and `False` on `ImportError` (lines 230-233); a cached
adapter is returned directly (line 234). Returns the value handed to the
caller, the new cache entry, and how many import attempts this access
performed. The accessor is a total function: the modelled
`ImportError` is caught by the `match`, mirroring the `try`/`except`. -/
def Callbacks.keras (keras_installed : Bool) (st : CallbackEntry) :
    Option Unit × CallbackEntry × Nat :=
  match st with
  | CallbackEntry.unavailable => (none, CallbackEntry.unavailable, 0)
  | CallbackEntry.adapter => (some (), CallbackEntry.adapter, 0)
  | CallbackEntry.missing =>
      match importKerasCallback keras_installed with
      | Except.ok _ => (some (), CallbackEntry.adapter, 1)
      | Except.error _ => (none, CallbackEntry.unavailable, 1)

/-- Iterated access: `n` successive accesses of the `Callbacks.keras` property on one
`Callbacks` instance, threading the cache entry through; returns the
final cache entry, the total number of import attempts, and the list of
values returned to the caller. -/
def Callbacks.kerasN (keras_installed : Bool) (st : CallbackEntry) :
    Nat → CallbackEntry × Nat × List (Option Unit)
  | 0 => (st, 0, [])
  | n + 1 =>
      let r := Callbacks.keras keras_installed st
      let rest := Callbacks.kerasN keras_installed r.2.1 n
      (rest.1, r.2.2 + rest.2.1, r.1 :: rest.2.2)

/-- Model of `logs.get(key)` on the epoch-end payload, modelled as lookup in an
association list. -/
def dictGet (logs : List (String × Int)) (k : String) : Option Int :=
  match logs.find? (fun p => p.1 == k) with
  | some p => some p.2
  | none => none

/-- Model of `_KerasCallback.on_epoch_end` (lines 217-226): replace a falsy
`logs` by an empty dict (an absent dict becomes `[]`; an empty dict
already is `[]`), read `val_accuracy` and `val_loss`, and forward each
present value through `Experiment.metric` in that order. -/
def KerasCallback.on_epoch_end (s : ExpState)
    (logs : Option (List (String × Int))) : ExpState × List Event :=
  let lgs := match logs with
    | none => []
    | some d => d
  let val_acc := dictGet lgs "val_accuracy"
  let val_loss := dictGet lgs "val_loss"
  let r1 := match val_acc with
    | some v => Experiment.metric s "val_accuracy" v true
    | none => (s, [])
  let r2 := match val_loss with
    | some v => Experiment.metric r1.1 "val_loss" v true
    | none => (r1.1, [])
  (r2.1, r1.2 ++ r2.2)

/-- Program counter of the background worker thread started at lines
123-130: about to call `_set_start_time` (line 124), executing
`self._hd.run()` (line 125), about to call `_set_end_time` (line 126),
about to `done_chan.put(True)` (line 127), finished. -/
inductive WPC where
  | wStart
  | wRun
  | wEnd
  | wPut
  | wDone
deriving DecidableEq

/-- Program counter of the caller thread inside its first invocation of
`Experiment.end` (lines 151-162): reading `_ended` (line 152), setting
`_ended = True` (line 155), the three statements of the locked block
(lines 157-159), the blocking `done_chan.get` (line 162), returned. -/
inductive MPC where
  | mCheck
  | mSetEnded
  | mRestore
  | mSetEC
  | mSetDone
  | mGet
  | mDone
deriving DecidableEq

/-- Shared state of the two threads: both program counters, the number
of tokens in `done_chan`, the `_ended` flag, the `ExperimentRunner`, and
a global clock supplying `datetime.now()` values. -/
structure CState where
  wpc : WPC
  mpc : MPC
  chan : Nat
  ended : Bool
  runner : ExperimentRunner
  clock : Nat
deriving DecidableEq

/-- State at construction: worker about to record its start time, caller
about to execute the body of `end` (any caller activity before that only
lets time pass, which `Step.tick` models), empty channel,
`_ended = False` (line 131), freshly created runner. -/
def initC : CState :=
  { wpc := WPC.wStart
    mpc := MPC.mCheck
    chan := 0
    ended := false
    runner := ExperimentRunner.create
    clock := 0 }

/-- Interleaved small-step semantics of the worker (lines 123-127) and
of `Experiment.end` (lines 151-162). Each statement touching shared
state is one atomic step; the locked block of `end` is three steps, which
is faithful because the worker never writes the fields it touches.
`mGet` is the blocking `done_chan.get(block=True, timeout=None)`: it is
enabled only when a token is present, and no other step moves the caller
past it. `tick` lets time pass. -/
inductive Step : CState → CState → Prop where
  | tick (s : CState) :
      Step s { s with clock := s.clock + 1 }
  | wSetStart (s : CState) (h : s.wpc = WPC.wStart) :
      Step s { s with runner := s.runner._set_start_time s.clock, wpc := WPC.wRun }
  | wRunDone (s : CState) (h : s.wpc = WPC.wRun) :
      Step s { s with wpc := WPC.wEnd }
  | wSetEnd (s : CState) (h : s.wpc = WPC.wEnd) :
      Step s { s with runner := s.runner._set_end_time s.clock, wpc := WPC.wPut }
  | wPut (s : CState) (h : s.wpc = WPC.wPut) :
      Step s { s with chan := s.chan + 1, wpc := WPC.wDone }
  | mCheckTrue (s : CState) (h : s.mpc = MPC.mCheck) (he : s.ended = true) :
      Step s { s with mpc := MPC.mDone }
  | mCheckFalse (s : CState) (h : s.mpc = MPC.mCheck) (he : s.ended = false) :
      Step s { s with mpc := MPC.mSetEnded }
  | mSetEnded (s : CState) (h : s.mpc = MPC.mSetEnded) :
      Step s { s with ended := true, mpc := MPC.mRestore }
  | mRestore (s : CState) (h : s.mpc = MPC.mRestore) :
      Step s { s with mpc := MPC.mSetEC }
  | mSetEC (s : CState) (h : s.mpc = MPC.mSetEC) :
      Step s { s with runner := { s.runner with exit_cleanly := true }, mpc := MPC.mSetDone }
  | mSetDone (s : CState) (h : s.mpc = MPC.mSetDone) :
      Step s { s with runner := { s.runner with done := true }, mpc := MPC.mGet }
  | mGet (s : CState) (h : s.mpc = MPC.mGet) (hc : 0 < s.chan) :
      Step s { s with chan := s.chan - 1, mpc := MPC.mDone }

/-- States reachable from construction. -/
inductive Reachable : CState → Prop where
  | init : Reachable initC
  | step {s s' : CState} : Reachable s → Step s s' → Reachable s'

/-- Number of completion tokens the worker has posted on `done_chan`
so far: one once it has passed `done_chan.put(True)`. -/
def tokensPut (s : CState) : Nat :=
  if s.wpc = WPC.wDone then 1 else 0

/-- Number of completion tokens `end` has consumed from `done_chan`
so far: one once it has passed `done_chan.get`. -/
def tokensGot (s : CState) : Nat :=
  if s.mpc = MPC.mDone then 1 else 0

/-- Inductive invariant of the interleaved system: the runner signal
always reports a clean exit; channel contents balance the tokens put and
consumed; the `_ended` flag is still false while `end` is reading it;
the worker's timestamps are unset until written, never exceed the clock,
and the end timestamp is written after the start timestamp. -/
def Inv (s : CState) : Prop :=
  s.runner.exit_cleanly = true ∧
  s.chan + tokensGot s = tokensPut s ∧
  (s.mpc = MPC.mCheck → s.ended = false) ∧
  (s.wpc = WPC.wStart → s.runner.start_time = none ∧ s.runner.end_time = none) ∧
  (s.runner.start_time = none → s.wpc = WPC.wStart) ∧
  (∀ t, s.runner.start_time = some t → t ≤ s.clock) ∧
  (∀ u, s.runner.end_time = some u →
    u ≤ s.clock ∧ ∃ t, s.runner.start_time = some t ∧ t ≤ u)

/-- The state reached by the happy-path execution: the worker records
start time 1, finishes the run loop, records end time 2, posts its token;
the caller then runs `end` to completion, consuming the token. -/
def execFinal : CState :=
  { wpc := WPC.wDone
    mpc := MPC.mDone
    chan := 0
    ended := true
    runner := { done := true, exit_cleanly := true,
                start_time := some 1, end_time := some 2 }
    clock := 2 }

/-- The invariant holds at construction. -/
theorem inv_init : Inv initC := by
  refine ⟨rfl, rfl, fun _ => rfl, fun _ => ⟨rfl, rfl⟩, fun _ => rfl, ?_, ?_⟩
  · intro t ht
    simp [initC, ExperimentRunner.create] at ht
  · intro u hu
    simp [initC, ExperimentRunner.create] at hu

/-- The invariant is preserved by every step. -/
theorem inv_step {s s' : CState} (hs : Inv s) (h : Step s s') : Inv s' := by
  obtain ⟨hec, htok, hchk, hws, hsn, hst, hen⟩ := hs
  cases h with
  | tick =>
      exact ⟨hec, htok, hchk, hws, hsn,
        fun t ht => Nat.le_succ_of_le (hst t ht),
        fun u hu => ⟨Nat.le_succ_of_le (hen u hu).1, (hen u hu).2⟩⟩
  | wSetStart h =>
      refine ⟨hec, ?_, hchk, ?_, ?_, ?_, ?_⟩
      · simpa [tokensPut, tokensGot, h] using htok
      · intro hw; simp at hw
      · intro hnone
        simp [ExperimentRunner._set_start_time] at hnone
      · intro t ht
        show t ≤ s.clock
        simp [ExperimentRunner._set_start_time] at ht
        omega
      · intro u hu
        have hend : s.runner.end_time = none := (hws h).2
        simp [ExperimentRunner._set_start_time, hend] at hu
  | wRunDone h =>
      refine ⟨hec, ?_, hchk, ?_, ?_, hst, hen⟩
      · simpa [tokensPut, tokensGot, h] using htok
      · intro hw; simp at hw
      · intro hnone
        rw [hsn hnone] at h
        simp at h
  | wSetEnd h =>
      refine ⟨hec, ?_, hchk, ?_, ?_, ?_, ?_⟩
      · simpa [tokensPut, tokensGot, h] using htok
      · intro hw; simp at hw
      · intro hnone
        simp [ExperimentRunner._set_end_time] at hnone
        rw [hsn hnone] at h
        simp at h
      · intro t ht
        simp [ExperimentRunner._set_end_time] at ht
        exact hst t ht
      · intro u hu
        simp [ExperimentRunner._set_end_time] at hu
        cases hstart : s.runner.start_time with
        | none =>
            rw [hsn hstart] at h
            simp at h
        | some t =>
            exact hu ▸ ⟨le_refl _, t, hstart, hst t hstart⟩
  | wPut h =>
      refine ⟨hec, ?_, hchk, ?_, ?_, hst, hen⟩
      · show s.chan + 1 + tokensGot s = 1
        have hput : tokensPut s = 0 := by simp [tokensPut, h]
        omega
      · intro hw; simp at hw
      · intro hnone
        rw [hsn hnone] at h
        simp at h
  | mCheckTrue h he =>
      rw [hchk h] at he
      cases he
  | mCheckFalse h he =>
      refine ⟨hec, ?_, ?_, hws, hsn, hst, hen⟩
      · simpa [tokensPut, tokensGot, h] using htok
      · intro hm; simp at hm
  | mSetEnded h =>
      refine ⟨hec, ?_, ?_, hws, hsn, hst, hen⟩
      · simpa [tokensPut, tokensGot, h] using htok
      · intro hm; simp at hm
  | mRestore h =>
      refine ⟨hec, ?_, ?_, hws, hsn, hst, hen⟩
      · simpa [tokensPut, tokensGot, h] using htok
      · intro hm; simp at hm
  | mSetEC h =>
      refine ⟨rfl, ?_, ?_, ?_, ?_, ?_, ?_⟩
      · simpa [tokensPut, tokensGot, h] using htok
      · intro hm; simp at hm
      · intro hw
        exact ⟨(hws hw).1, (hws hw).2⟩
      · intro hnone
        exact hsn hnone
      · intro t ht
        exact hst t ht
      · intro u hu
        exact hen u hu
  | mSetDone h =>
      refine ⟨hec, ?_, ?_, ?_, ?_, ?_, ?_⟩
      · simpa [tokensPut, tokensGot, h] using htok
      · intro hm; simp at hm
      · intro hw
        exact ⟨(hws hw).1, (hws hw).2⟩
      · intro hnone
        exact hsn hnone
      · intro t ht
        exact hst t ht
      · intro u hu
        exact hen u hu
  | mGet h hc =>
      refine ⟨hec, ?_, ?_, hws, hsn, hst, hen⟩
      · show s.chan - 1 + 1 = tokensPut s
        have hgot : tokensGot s = 0 := by simp [tokensGot, h]
        omega
      · intro hm; simp at hm

/-- Every reachable state satisfies the invariant. -/
theorem inv_reachable {s : CState} (h : Reachable s) : Inv s := by
  induction h with
  | init => exact inv_init
  | step _ hstep ih => exact inv_step ih hstep

/-- The happy-path execution is a genuine execution of the system: the
worker runs to completion, then the caller's `end` runs to completion. -/
theorem reachable_execFinal : Reachable execFinal := by
  have h0 : Reachable initC := Reachable.init
  have h1 := Reachable.step h0 (Step.tick initC)
  have h2 := Reachable.step h1 (Step.wSetStart _ rfl)
  have h3 := Reachable.step h2 (Step.tick _)
  have h4 := Reachable.step h3 (Step.wRunDone _ rfl)
  have h5 := Reachable.step h4 (Step.wSetEnd _ rfl)
  have h6 := Reachable.step h5 (Step.wPut _ rfl)
  have h7 := Reachable.step h6 (Step.mCheckFalse _ rfl rfl)
  have h8 := Reachable.step h7 (Step.mSetEnded _ rfl)
  have h9 := Reachable.step h8 (Step.mRestore _ rfl)
  have h10 := Reachable.step h9 (Step.mSetEC _ rfl)
  have h11 := Reachable.step h10 (Step.mSetDone _ rfl)
  have h12 := Reachable.step h11 (Step.mGet _ rfl (by decide))
  exact h12

/-- Claim C1: once `end()` has returned from its first invocation, the
worker has posted its one-shot completion token on `done_chan` (the
worker's program order puts the post after the run loop finishes). The
channel always balances exactly the tokens put by the worker against the
tokens consumed by `end()` — at most one each, so the token is produced
exactly once and consumed exactly once — and while `end()` sits at the
blocking, timeout-free `done_chan.get` with no token present, no step of
the system lets it return. -/
theorem c1_end_rendezvous (s : CState) (hs : Reachable s) :
    s.chan + tokensGot s = tokensPut s ∧
    (s.mpc = MPC.mDone → s.wpc = WPC.wDone ∧ s.chan = 0) ∧
    (s.mpc = MPC.mGet → s.chan = 0 → ∀ s', Step s s' → s'.mpc ≠ MPC.mDone) := by
  obtain ⟨-, htok, -, -, -, -, -⟩ := inv_reachable hs
  refine ⟨htok, ?_, ?_⟩
  · intro hm
    have hgot : tokensGot s = 1 := by simp [tokensGot, hm]
    by_cases hw : s.wpc = WPC.wDone
    · have hput : tokensPut s = 1 := by simp [tokensPut, hw]
      exact ⟨hw, by omega⟩
    · have hput : tokensPut s = 0 := by simp [tokensPut, hw]
      exfalso
      omega
  · intro hm hchan s' hstep hmd
    cases hstep <;> simp_all

/-- Witness for C1 at the concrete happy-path terminal state. -/
theorem c1_end_rendezvous_witness :
    execFinal.chan + tokensGot execFinal = tokensPut execFinal ∧
    execFinal.wpc = WPC.wDone ∧ execFinal.chan = 0 :=
  ⟨(c1_end_rendezvous execFinal reachable_execFinal).1,
   (c1_end_rendezvous execFinal reachable_execFinal).2.1 rfl⟩

/-- Claim C8: on every reachable state in which both timestamps of the
runner signal are set, the start time is at most the end time — the
worker records the start time before the run loop and the end time
after it. -/
theorem c8_start_le_end (s : CState) (hs : Reachable s) (t u : Nat)
    (ht : s.runner.start_time = some t) (hu : s.runner.end_time = some u) :
    t ≤ u := by
  obtain ⟨-, -, -, -, -, -, hen⟩ := inv_reachable hs
  obtain ⟨-, t', ht', htu⟩ := hen u hu
  rw [ht] at ht'
  injection ht' with hh
  subst hh
  exact htu

/-- Witness for C8: the happy-path execution sets start time 1 and end
time 2, and the theorem yields `1 ≤ 2` there. -/
theorem c8_start_le_end_witness :
    execFinal.runner.start_time = some 1 ∧
    execFinal.runner.end_time = some 2 ∧ (1 : Nat) ≤ 2 :=
  ⟨rfl, rfl, c8_start_le_end execFinal reachable_execFinal 1 2 rfl rfl⟩

/-- Claim C10: in every reachable state the runner signal's
`exit_cleanly` field is true — it is initialized true at construction
and the only write (in `end()`, line 158) writes true — so `is_done`
always returns `(true, done)`. -/
theorem c10_exit_cleanly_invariant (s : CState) (hs : Reachable s) :
    s.runner.exit_cleanly = true ∧
    s.runner.is_done = (true, s.runner.done) := by
  obtain ⟨hec, -, -, -, -, -, -⟩ := inv_reachable hs
  exact ⟨hec, by simp [ExperimentRunner.is_done, hec]⟩

/-- Witness for C10 at the concrete happy-path terminal state. -/
theorem c10_exit_cleanly_invariant_witness :
    execFinal.runner.exit_cleanly = true ∧
    execFinal.runner.is_done = (true, execFinal.runner.done) :=
  c10_exit_cleanly_invariant execFinal reachable_execFinal

/-- On an already-ended experiment, `end` early-returns after the sole
read of `_ended`. -/
theorem end_of_ended (s : ExpState) (h : s.ended = true) :
    Experiment.end' s = (s, [Event.checkEnded true]) := by
  simp [Experiment.end', h]

/-- After any call to `end`, the experiment is marked ended. -/
theorem ended_after_end (s : ExpState) : (Experiment.end' s).1.ended = true := by
  by_cases h : s.ended = true <;> simp [Experiment.end', h]

/-- Claim C2: calling `end` a second time leaves the state of the first
call untouched and its trace is only the read of `_ended`: no stream
restoration, no runner-signal write, no wait on `done_chan` — the second
call is a no-op that returns immediately. -/
theorem c2_end_idempotent (s : ExpState) :
    Experiment.end' (Experiment.end' s).1
      = ((Experiment.end' s).1, [Event.checkEnded true]) ∧
    ((Experiment.end' (Experiment.end' s).1).2).countP isSideEffect = 0 ∧
    Event.chanGet ∉ (Experiment.end' (Experiment.end' s).1).2 ∧
    Event.restoreStreams ∉ (Experiment.end' (Experiment.end' s).1).2 := by
  have heq := end_of_ended (Experiment.end' s).1 (ended_after_end s)
  refine ⟨heq, ?_, ?_, ?_⟩ <;> rw [heq] <;> simp [isSideEffect]

/-- Claim C3: after `end()` has set `_ended`, each of `metric`, `param`
and `iter` leaves the state unchanged, emits exactly one logger warning,
and forwards nothing to the delivery client. (Each operation is a total
function here, matching its never-raising early-return path.) -/
theorem c3_post_end_noop (s : ExpState) (h : s.ended = true)
    (name : String) (value : Int) (lg : Bool) (n : Int) :
    ((Experiment.metric s name value lg).1 = s ∧
     ((Experiment.metric s name value lg).2).countP isWarn = 1 ∧
     ((Experiment.metric s name value lg).2).countP isClientCall = 0) ∧
    ((Experiment.param s name value lg).1 = s ∧
     ((Experiment.param s name value lg).2).countP isWarn = 1 ∧
     ((Experiment.param s name value lg).2).countP isClientCall = 0) ∧
    ((Experiment.iter s n lg).1 = s ∧
     ((Experiment.iter s n lg).2).countP isWarn = 1 ∧
     ((Experiment.iter s n lg).2).countP isClientCall = 0) := by
  simp [Experiment.metric, Experiment.param, Experiment.iter, h,
    isWarn, isClientCall]

/-- Witness for C3 at a concrete ended experiment. -/
theorem c3_post_end_noop_witness :
    (Experiment.metric endedState "x" 1 true).1 = endedState ∧
    ((Experiment.metric endedState "x" 1 true).2).countP isWarn = 1 ∧
    ((Experiment.metric endedState "x" 1 true).2).countP isClientCall = 0 :=
  (c3_post_end_noop endedState rfl "x" 1 true 5).1

/-- Claim C4 as stated is false: in the trace of a first call to `end`,
the read of `_ended` (and indeed the write setting it) happens before
the instance lock is acquired, so the check is not performed while
holding the lock. -/
theorem c4_counterexample :
    ¬ (checkUnderLock (Experiment.end' freshState).2 ∧
       checkFirst (Experiment.end' freshState).2) := by
  decide

/-- Claim C4, amended: in a first call to `end`, the `_ended` check does
precede every side effect, but it is performed without holding the
instance lock, and the `_ended` flag itself is also set before the lock
is acquired; only the stream restoration and the two runner-signal
writes happen under the lock. -/
theorem c4_check_first_but_unlocked (s : ExpState) (h : s.ended = false) :
    checkFirst (Experiment.end' s).2 ∧
    ¬ checkUnderLock (Experiment.end' s).2 ∧
    (∀ i : Fin (Experiment.end' s).2.length,
      ((Experiment.end' s).2.get i = Event.restoreStreams ∨
       (Experiment.end' s).2.get i = Event.setExitCleanly ∨
       (Experiment.end' s).2.get i = Event.setDone) →
      lockHeldAt (Experiment.end' s).2 (i : Nat)) ∧
    (∀ i j : Fin (Experiment.end' s).2.length,
      (Experiment.end' s).2.get i = Event.setEnded →
      (Experiment.end' s).2.get j = Event.acquireLock →
      (i : Nat) < (j : Nat)) := by
  have htr : (Experiment.end' s).2 = [Event.checkEnded false, Event.setEnded,
      Event.acquireLock, Event.restoreStreams, Event.setExitCleanly,
      Event.setDone, Event.releaseLock, Event.chanGet] := by
    simp [Experiment.end', h]
  rw [htr]
  decide

/-- Witness for the amended C4 at a concrete fresh experiment. -/
theorem c4_check_first_but_unlocked_witness :
    checkFirst (Experiment.end' freshState).2 ∧
    ¬ checkUnderLock (Experiment.end' freshState).2 :=
  ⟨(c4_check_first_but_unlocked freshState rfl).1,
   (c4_check_first_but_unlocked freshState rfl).2.1⟩

/-- Claim C7: with capture disabled, the constructor leaves both streams
untouched, the recorded originals coincide with the current streams (so
the restoration in `end` is an identity assignment), and after `end` the
stream identities equal those observed before construction. -/
theorem c7_capture_disabled_noop (model : String) (cur_out cur_err : StreamId) :
    (Experiment.init model false cur_out cur_err).stdout = cur_out ∧
    (Experiment.init model false cur_out cur_err).stderr = cur_err ∧
    (Experiment.init model false cur_out cur_err).old_out
      = (Experiment.init model false cur_out cur_err).stdout ∧
    (Experiment.init model false cur_out cur_err).old_err
      = (Experiment.init model false cur_out cur_err).stderr ∧
    (Experiment.end' (Experiment.init model false cur_out cur_err)).1.stdout
      = cur_out ∧
    (Experiment.end' (Experiment.init model false cur_out cur_err)).1.stderr
      = cur_err := by
  simp [Experiment.init, Experiment.end']

/-- Claim C9: `log` does not consult the `_ended` flag — after `end` it
still writes the message through the logger and emits no warning, in
contrast to `metric`, which warns. -/
theorem c9_log_bypasses_ended (s : ExpState) (h : s.ended = true) (msg : String)
    (name : String) (value : Int) (lg : Bool) :
    Experiment.log s msg = (s, [Event.info msg]) ∧
    ((Experiment.log s msg).2).countP isWarn = 0 ∧
    ((Experiment.metric s name value lg).2).countP isWarn = 1 := by
  refine ⟨rfl, ?_, ?_⟩ <;>
    simp [Experiment.log, Experiment.metric, h, isWarn]

/-- Witness for C9 at a concrete ended experiment. -/
theorem c9_log_bypasses_ended_witness :
    Experiment.log endedState "hello" = (endedState, [Event.info "hello"]) ∧
    ((Experiment.log endedState "hello").2).countP isWarn = 0 ∧
    ((Experiment.metric endedState "x" 1 true).2).countP isWarn = 1 :=
  c9_log_bypasses_ended endedState rfl "hello" "x" 1 true

/-- Once the cache entry is `False`, every further access returns `None`
without attempting the import. -/
theorem kerasN_unavailable (n : Nat) :
    Callbacks.kerasN false CallbackEntry.unavailable n =
      (CallbackEntry.unavailable, 0, List.replicate n none) := by
  induction n with
  | zero => rfl
  | succ m ih =>
      simp [Callbacks.kerasN, Callbacks.keras, ih, List.replicate_succ]

/-- Claim C5: with Keras not installed, any positive number of accesses
to the `keras` accessor of one `Callbacks` instance attempts the import
exactly once, caches the permanent `False` entry, and hands `None` back
to the caller on every access; the accessor is total, so no exception
reaches the caller. -/
theorem c5_lazy_cache (n : Nat) (h : 1 ≤ n) :
    Callbacks.kerasN false CallbackEntry.missing n =
      (CallbackEntry.unavailable, 1, List.replicate n none) := by
  obtain ⟨m, rfl⟩ : ∃ m, n = m + 1 := ⟨n - 1, by omega⟩
  simp [Callbacks.kerasN, Callbacks.keras, importKerasCallback,
    kerasN_unavailable, List.replicate_succ]

/-- Witness for C5 with three accesses. -/
theorem c5_lazy_cache_witness :
    Callbacks.kerasN false CallbackEntry.missing 3 =
      (CallbackEntry.unavailable, 1, List.replicate 3 none) :=
  c5_lazy_cache 3 (by decide)

/-- Claim C6: on an epoch-end payload that holds a `val_accuracy` entry
but no `val_loss` entry, exactly one metric report is produced — for the
accuracy value — and no report mentions `val_loss`. -/
theorem c6_selective_forwarding (s : ExpState) (h : s.ended = false)
    (logs : List (String × Int)) (a : Int)
    (ha : dictGet logs "val_accuracy" = some a)
    (hl : dictGet logs "val_loss" = none) :
    (KerasCallback.on_epoch_end s (some logs)).2
      = [Event.clientMetric "val_accuracy" a true] ∧
    ((KerasCallback.on_epoch_end s (some logs)).2).countP isClientCall = 1 ∧
    (∀ e ∈ (KerasCallback.on_epoch_end s (some logs)).2,
      ∀ v lg, e ≠ Event.clientMetric "val_loss" v lg) := by
  have heq : (KerasCallback.on_epoch_end s (some logs)).2
      = [Event.clientMetric "val_accuracy" a true] := by
    simp [KerasCallback.on_epoch_end, ha, hl, Experiment.metric, h]
  refine ⟨heq, ?_, ?_⟩
  · rw [heq]
    simp [isClientCall]
  · rw [heq]
    intro e he v lg
    simp at he
    subst he
    simp

/-- Witness for C6 on a concrete payload `{"val_accuracy": 9}`. -/
theorem c6_selective_forwarding_witness :
    (KerasCallback.on_epoch_end freshState (some [("val_accuracy", 9)])).2
      = [Event.clientMetric "val_accuracy" 9 true] :=
  (c6_selective_forwarding freshState rfl [("val_accuracy", 9)] 9 rfl rfl).1

end Hyperdash
